import Mathlib

/-!
Verification of the OSC-Agent workflow orchestration core.

This file gives a shallow embedding of the orchestrator state machine
(`src/orchestrator/state-machine.ts`, shipped inside `guards.ts`), the
guard tables (`guards.ts` and its revised duplicate), the recovery
manager (`recovery.ts`), the state store (`state-store.ts`) and the
event layer (`events.ts`), and proves the specified properties about
them.
-/

namespace OSC


/-! ## JavaScript-like values

Context entries in the TypeScript code have type `unknown`; guards probe
them with JavaScript truthiness and `Array.isArray`.  We embed the value
universe as a JSON-like inductive. -/

inductive JValue where
  | vnull
  | vbool (b : Bool)
  | vnum (n : Int)
  | vstr (s : String)
  | varr (elems : List JValue)
  | vobj (fields : List (String × JValue))

/-- JavaScript truthiness of a value (`!!v`): `null`, `false`, `0` and the
empty string are falsy; arrays and objects are always truthy. -/
def JValue.truthy : JValue → Bool
  | .vnull => false
  | .vbool b => b
  | .vnum n => n != 0
  | .vstr s => s ≠ ""
  | .varr _ => true
  | .vobj _ => true

/-- Truthiness of an optional field access (`!!ctx.k`): an absent key is
`undefined`, which is falsy. -/
def truthyOpt : Option JValue → Bool
  | none => false
  | some v => v.truthy

/-! ## Contexts

The machine context is a `Record<string, unknown>`: a key/value bag,
merged shallowly with object spread (`{...a, ...b}`, last writer wins). -/

abbrev Ctx : Type := List (String × JValue)

/-- Lookup of a key in a context (property access on the object). -/
def Ctx.get (c : Ctx) (k : String) : Option JValue :=
  (c.find? (fun p => p.1 = k)).map (fun p => p.2)

/-- Shallow merge `{...a, ...b}`: keys of `a` keep their position (with the
value from `b` when `b` also has the key); keys only in `b` are appended. -/
def Ctx.merge (a b : Ctx) : Ctx :=
  a.map (fun p => match Ctx.get b p.1 with
          | some v => (p.1, v)
          | none => p)
    ++ b.filter (fun p => (Ctx.get a p.1).isNone)

/-! ## States and triggers (`src/orchestrator/states.ts`, `transitions.ts`) -/

/-- The state set: core (operational) states `IDLE`..`DONE` plus the
control states `PAUSED`, `ERROR`, `CANCELLED`. -/
inductive State where
  | IDLE | ANALYZING | SEARCHING | PLANNING | GENERATING | APPLYING
  | BUILDING | TESTING | REVIEWING | SUBMITTING | DONE
  | PAUSED | ERROR | CANCELLED
deriving Repr, DecidableEq

/-- The control states, as tested by
`['PAUSED', 'ERROR', 'CANCELLED'].includes(this.state)` in
`StateMachine.transition`. -/
def State.isControl : State → Bool
  | .PAUSED => true
  | .ERROR => true
  | .CANCELLED => true
  | _ => false

/-- Triggers driving transitions: per-stage success triggers plus the
global controls. -/
inductive Trigger where
  | START | ANALYSIS_OK | SEARCH_OK | PLAN_OK | GENERATION_OK | APPLY_OK
  | BUILD_OK | TEST_OK | REVIEW_OK | SUBMIT_OK
  | PAUSE | RESUME | CANCEL | FAIL | RETRY
deriving Repr, DecidableEq

/-- Modelled from the spec: the transition table of
`src/orchestrator/transitions.ts`, a module absent from the sources (only
its importers ship).  Section 4.2 of the spec gives the forward path
`IDLE —START→ ANALYZING —ANALYSIS_OK→ … —SUBMIT_OK→ DONE` and, from
`ERROR`, `RETRY → <retry target>`, where the retry target is always
`GENERATING`; no other per-state entries exist (controls are handled
globally inside `transition`, and `RESUME` is resolved dynamically from
history before this table is consulted). -/
def transitions : State → Trigger → Option State
  | .IDLE, .START => some .ANALYZING
  | .ANALYZING, .ANALYSIS_OK => some .SEARCHING
  | .SEARCHING, .SEARCH_OK => some .PLANNING
  | .PLANNING, .PLAN_OK => some .GENERATING
  | .GENERATING, .GENERATION_OK => some .APPLYING
  | .APPLYING, .APPLY_OK => some .BUILDING
  | .BUILDING, .BUILD_OK => some .TESTING
  | .TESTING, .TEST_OK => some .REVIEWING
  | .REVIEWING, .REVIEW_OK => some .SUBMITTING
  | .SUBMITTING, .SUBMIT_OK => some .DONE
  | .ERROR, .RETRY => some .GENERATING
  | _, _ => none

/-! ## Guards (`src/orchestrator/guards.ts` and its revised duplicate)

The repository ships two conflicting definitions of `transitionGuards`.
The spec designates the `analysis` check as the canonical entry guard for
`SEARCHING` and the `query`/`analysisResults` variant as dead code; the
state machine below uses the canonical table. -/

/-- Canonical `SEARCHING` guard: `(ctx) => !!ctx.analysis`. -/
def searchingGuard (ctx : Ctx) : Bool :=
  truthyOpt (ctx.get "analysis")

/-- `PLANNING` guard (identical in both versions):
`(ctx) => Array.isArray(ctx.searchResults) && ctx.searchResults.length > 0`. -/
def planningGuard (ctx : Ctx) : Bool :=
  match ctx.get "searchResults" with
  | some (.varr elems) => decide (elems.length > 0)
  | _ => false

/-- Dead-code variant of the `SEARCHING` guard from the older guards
module: `(ctx) => !!ctx.query || !!ctx.analysisResults`. -/
def searchingGuardLegacy (ctx : Ctx) : Bool :=
  truthyOpt (ctx.get "query") || truthyOpt (ctx.get "analysisResults")

/-- The canonical guard table: per-destination optional predicates. -/
def transitionGuards : State → Option (Ctx → Bool)
  | .SEARCHING => some searchingGuard
  | .PLANNING => some planningGuard
  | _ => none

/-- Guard evaluation in `transition` step 5: when a guard exists for the
destination it must return true; otherwise the transition may proceed. -/
def checkGuard (dest : State) (ctx : Ctx) : Bool :=
  match transitionGuards dest with
  | some g => g ctx
  | none => true

/-! ## The state machine (`src/orchestrator/state-machine.ts`) -/

/-- In-memory fields of a `StateMachine` instance. -/
structure Machine where
  runId : String
  state : State
  history : List State
  attempt : Nat
  context : Ctx

/-- A fresh machine: `state = IDLE`, empty history, `attempt = 1`,
empty context. -/
def initialMachine (runId : String) : Machine :=
  { runId := runId, state := .IDLE, history := [], attempt := 1, context := [] }

/-- Error payload attached to `FAIL` transitions. -/
structure ErrPayload where
  code : String
  message : String
  details : Option String

/-- Optional payload of `transition(trigger, payload)`. -/
structure Payload where
  context : Option Ctx
  error : Option ErrPayload

/-- The empty payload (`transition(trigger)` with no second argument). -/
def noPayload : Payload := { context := none, error := none }

/-- The persisted run record (`PersistedState` in `states.ts`), as built
in step 8 of `transition`.  `updatedAt` carries the wall-clock string
passed in as `now`. -/
structure PersistedState where
  runId : String
  currentState : State
  updatedAt : String
  attempt : Nat
  context : Ctx
  error : Option ErrPayload
  history : List State

/-- The `stateChange` event payload (`events.ts`). -/
structure StateChangeEvent where
  fromState : State
  toState : State
  trigger : Trigger
  runId : String
  timestamp : String

/-- Externally visible effects of one `transition` call, in program
order: a completed store save, then a synchronous event emission. -/
inductive Action where
  | save (record : PersistedState)
  | emit (event : StateChangeEvent)

/-- Result classification of one `transition` call.  On the three error
outcomes the method throws; the corresponding machine fields are whatever
the method had already mutated when it threw. -/
inductive Outcome where
  | committed (event : StateChangeEvent) (saved : PersistedState)
  | invalidTransition
  | guardRejected (dest : State)
  | saveFailed (attempted : PersistedState)

/-- Whether the call committed (saved and emitted). -/
def Outcome.isCommitted : Outcome → Bool
  | .committed _ _ => true
  | _ => false

/-- Everything one `transition` call produces: the in-memory machine
after the call returns or throws, the outcome, and the effect trace. -/
structure StepResult where
  machine : Machine
  outcome : Outcome
  actions : List Action

/-- Steps 1a–3 of `StateMachine.transition`: resolve the next state and
apply the early mutations.  `RESUME` pops history (falling back to
`IDLE`); `RETRY` increments `attempt`, prefers the transition table and
falls back to a history pop; otherwise the global control overrides
apply from non-terminal states, then the table is consulted.  History is
a stack pushed/popped at the tail, as with a JavaScript array. -/
def resolveNext (m : Machine) (t : Trigger) : Machine × Option State :=
  match t with
  | .RESUME =>
      ({ m with history := m.history.dropLast },
        some (m.history.getLast?.getD .IDLE))
  | .RETRY =>
      match transitions m.state .RETRY with
      | some s => ({ m with attempt := m.attempt + 1 }, some s)
      | none =>
          ({ m with attempt := m.attempt + 1, history := m.history.dropLast },
            some (m.history.getLast?.getD .IDLE))
  | _ =>
      match (if m.state ≠ .DONE ∧ m.state ≠ .CANCELLED then
               (match t with
                | .PAUSE => some State.PAUSED
                | .CANCEL => some State.CANCELLED
                | .FAIL => some State.ERROR
                | _ => none)
             else none) with
      | some s => (m, some s)
      | none => (m, transitions m.state t)

/-- Steps 6–9 of `StateMachine.transition`: push the checkpoint, commit
state and context, persist, and emit.  `m` is the machine at entry, `m1`
the machine after the early mutations of `resolveNext`. -/
def commitStep (m m1 : Machine) (t : Trigger) (p : Payload) (nextState : State)
    (saveOk : Bool) (now : String) : StepResult :=
  let hist2 :=
    if m.state.isControl = false ∧ t ≠ .RESUME ∧ t ≠ .RETRY then
      m1.history ++ [m.state]
    else m1.history
  let ctx2 :=
    match p.context with
    | some pc => Ctx.merge m.context pc
    | none => m.context
  let m2 : Machine :=
    { runId := m.runId, state := nextState, history := hist2,
      attempt := m1.attempt, context := ctx2 }
  let saved : PersistedState :=
    { runId := m.runId, currentState := nextState, updatedAt := now,
      attempt := m1.attempt, context := ctx2, error := p.error, history := hist2 }
  if saveOk then
    let ev : StateChangeEvent :=
      { fromState := m.state, toState := nextState, trigger := t,
        runId := m.runId, timestamp := now }
    { machine := m2, outcome := .committed ev saved,
      actions := [.save saved, .emit ev] }
  else
    { machine := m2, outcome := .saveFailed saved, actions := [] }

/-- `StateMachine.transition(trigger, payload)`.  `saveOk` models whether
`store.save` succeeds; `now` is the wall clock (`new Date().toISOString()`).
The guard is evaluated on `{...this.context, ...payload?.context}`. -/
def transition (m : Machine) (t : Trigger) (p : Payload) (saveOk : Bool)
    (now : String) : StepResult :=
  let m1 := (resolveNext m t).1
  match (resolveNext m t).2 with
  | none => { machine := m1, outcome := .invalidTransition, actions := [] }
  | some nextState =>
      if checkGuard nextState (Ctx.merge m.context (p.context.getD [])) then
        commitStep m m1 t p nextState saveOk now
      else
        { machine := m1, outcome := .guardRejected nextState, actions := [] }

/-! ## The store, seen from the machine

`StateStore` keeps at most one record per handle; a committed transition
replaces it. -/

/-- Store contents for one storage handle. -/
abbrev Store : Type := Option PersistedState

/-- `load()`: returns the record, or the absent sentinel. -/
def Store.load (s : Store) : Option PersistedState := s

/-- Store contents after one `transition` call: only a committed call
replaces the record. -/
def storeAfter (s : Store) (r : StepResult) : Store :=
  match r.outcome with
  | .committed _ saved => some saved
  | _ => s

/-! ## String matching helpers

JavaScript `String.prototype.includes` is substring containment and
`toLowerCase` maps ASCII letters to lower case; we embed both. -/

/-- Whether `pat` occurs at the start of `hay` (character lists). -/
def listStartsWith : List Char → List Char → Bool
  | _, [] => true
  | [], _ :: _ => false
  | a :: as, b :: bs => a = b && listStartsWith as bs

/-- Whether `pat` occurs somewhere inside `hay` (character lists). -/
def listContainsSub : List Char → List Char → Bool
  | [], pat => pat.isEmpty
  | a :: as, pat => listStartsWith (a :: as) pat || listContainsSub as pat

/-- `hay.includes(pat)`. -/
def includesStr (hay pat : String) : Bool :=
  listContainsSub hay.data pat.data

/-- `s.toLowerCase()` (ASCII, which covers every pattern in the catalog). -/
def lowerStr (s : String) : String :=
  ⟨s.data.map Char.toLower⟩

/-! ## Recovery manager (`src/orchestrator/recovery.ts`) -/

/-- Severity classification for errors. -/
inductive Severity where
  | transient | retryable | fatal
deriving Repr, DecidableEq

/-- Structured classification of an error encountered during workflow
execution. -/
structure ErrorClassification where
  severity : Severity
  code : String
  message : String
  details : Option String
  retryTarget : Option State
deriving Repr, DecidableEq

namespace RecoveryManager

/-- The fix-cycle states, retried from `GENERATING`. -/
def FIX_CYCLE_STATES : List State :=
  [.GENERATING, .APPLYING, .BUILDING, .TESTING, .REVIEWING]

/-- Transient-pattern catalog. -/
def transientPatterns : List String :=
  ["rate limit", "timeout", "ECONNREFUSED", "ECONNRESET", "ETIMEDOUT",
   "socket hang up", "network error", "status 429", "status 503", "status 502"]

/-- Fatal-pattern catalog. -/
def fatalPatterns : List String :=
  ["Authentication failed", "API key is required", "token is required",
   "Invalid configuration", "No handler registered"]

/-- `isTransient`: lowercases the message and checks each (lowercased)
pattern for substring containment — case-insensitive matching. -/
def isTransient (message : String) : Bool :=
  transientPatterns.any (fun p => includesStr (lowerStr message) (lowerStr p))

/-- `isFatal`: checks each pattern with `message.includes(p)` directly —
case-sensitive matching. -/
def isFatal (message : String) : Bool :=
  fatalPatterns.any (fun p => includesStr message p)

/-- `classify(error, currentState)`, with the message and stack already
extracted from the thrown value. -/
def classify (message : String) (details : Option String) (currentState : State) :
    ErrorClassification :=
  if isFatal message then
    { severity := .fatal, code := "FATAL_ERROR", message := message,
      details := details, retryTarget := none }
  else if FIX_CYCLE_STATES.contains currentState then
    { severity := .retryable, code := "RETRYABLE_ERROR", message := message,
      details := details, retryTarget := some .GENERATING }
  else if isTransient message then
    { severity := .transient, code := "TRANSIENT_ERROR", message := message,
      details := details, retryTarget := none }
  else
    { severity := .fatal, code := "UNRECOVERABLE_ERROR", message := message,
      details := details, retryTarget := none }

/-- `shouldRetry(attempt, classification)` for a manager constructed with
`maxAttempts`. -/
def shouldRetry (maxAttempts : Nat) (attempt : Nat) (c : ErrorClassification) :
    Bool :=
  if c.severity = .fatal then false
  else if c.retryTarget = none then false
  else decide (attempt < maxAttempts)

end RecoveryManager

/-! ## The state store on disk (`src/orchestrator/state-store.ts`)

`save` runs `fs.mkdir(path.dirname(storagePath), {recursive:true})` and
then a single `fs.writeFile(storagePath, JSON.stringify(state, null, 2))`.
We embed the call as its sequence of filesystem operations. -/

/-- The enum name of a state, as serialized into the record. -/
def stateName : State → String
  | .IDLE => "IDLE"
  | .ANALYZING => "ANALYZING"
  | .SEARCHING => "SEARCHING"
  | .PLANNING => "PLANNING"
  | .GENERATING => "GENERATING"
  | .APPLYING => "APPLYING"
  | .BUILDING => "BUILDING"
  | .TESTING => "TESTING"
  | .REVIEWING => "REVIEWING"
  | .SUBMITTING => "SUBMITTING"
  | .DONE => "DONE"
  | .PAUSED => "PAUSED"
  | .ERROR => "ERROR"
  | .CANCELLED => "CANCELLED"

/-- Comma-join of serialized pieces. -/
def joinComma : List String → String
  | [] => ""
  | [x] => x
  | x :: xs => x ++ "," ++ joinComma xs

/-- JSON serialization of a context value (string escaping and the
pretty-printing layout of `JSON.stringify(_, null, 2)` are abstracted;
neither affects the stated properties). -/
def serializeJ : JValue → String
  | .vnull => "null"
  | .vbool b => cond b "true" "false"
  | .vnum n => toString n
  | .vstr s => "\"" ++ s ++ "\""
  | .varr elems => "[" ++ joinComma (elems.attach.map (fun x => serializeJ x.1)) ++ "]"
  | .vobj fields =>
      "\x7b" ++
        joinComma (fields.attach.map
          (fun x => "\"" ++ x.1.1 ++ "\":" ++ serializeJ x.1.2)) ++ "\x7d"
decreasing_by
  all_goals have h := List.sizeOf_lt_of_mem x.2
  all_goals simp_wf
  all_goals try omega
  all_goals obtain ⟨⟨a, b⟩, hmem⟩ := x
  all_goals simp at h ⊢
  all_goals omega

/-- JSON serialization of the optional error payload. -/
def serializeErr : Option ErrPayload → String
  | none => ""
  | some e =>
      ",\"error\":\x7b\"code\":\"" ++ e.code ++ "\",\"message\":\"" ++ e.message ++
        (match e.details with
         | some d => "\",\"details\":\"" ++ d ++ "\"\x7d"
         | none => "\"\x7d")

/-- `JSON.stringify(state, null, 2)`: the full record as one
self-describing JSON document (field order as in the object literal of
`transition` step 8). -/
def serializeRecord (st : PersistedState) : String :=
  "\x7b\"runId\":\"" ++ st.runId ++
    "\",\"currentState\":\"" ++ stateName st.currentState ++
    "\",\"updatedAt\":\"" ++ st.updatedAt ++
    "\",\"attempt\":" ++ toString st.attempt ++
    ",\"context\":" ++ serializeJ (.vobj st.context) ++
    serializeErr st.error ++
    ",\"history\":[" ++
    joinComma (st.history.map (fun s => "\"" ++ stateName s ++ "\"")) ++ "]\x7d"

/-- `path.dirname`: the characters before the last slash, when any. -/
def beforeLastSlash : List Char → Option (List Char)
  | [] => none
  | c :: rest =>
      match beforeLastSlash rest with
      | some tail => some (c :: tail)
      | none => if c = '/' then some [] else none

/-- `path.dirname(p)` (the edge cases involving trailing slashes do not
arise for the fixed store paths the orchestrator builds). -/
def dirname (p : String) : String :=
  match beforeLastSlash p.data with
  | some [] => "/"
  | some pre => ⟨pre⟩
  | none => "."

/-- A filesystem operation issued by the store. -/
inductive FsOp where
  | mkdirRecursive (dir : String)
  | writeFile (path : String) (content : String)
  | rename (src : String) (dst : String)
deriving Repr, DecidableEq

/-- `StateStore.save(state)` for a store constructed on `storagePath`:
create the parent directory, then write the serialized record directly
to the storage path in one `fs.writeFile` call. -/
def StateStore.saveOps (storagePath : String) (st : PersistedState) : List FsOp :=
  [.mkdirRecursive (dirname storagePath),
   .writeFile storagePath (serializeRecord st)]

/-- Whether an operation sequence writes file content directly to
`target` with `writeFile`. -/
def writesDirectlyTo (ops : List FsOp) (target : String) : Bool :=
  ops.any (fun op =>
    match op with
    | .writeFile p _ => p = target
    | _ => false)

/-- Whether an operation sequence performs any rename. -/
def usesRename (ops : List FsOp) : Bool :=
  ops.any (fun op =>
    match op with
    | .rename _ _ => true
    | _ => false)

/-- Modelled from the spec: `save` "must be atomic w.r.t. readers
(temp-file + rename, or equivalent)" — the new content reaches the
target path only through a rename, never through a direct `writeFile`
on the target. -/
def atomicWrtReaders (ops : List FsOp) (target : String) : Prop :=
  writesDirectlyTo ops target = false ∧ usesRename ops = true

/-- The proper prefixes of a string: what a suspended or crashed
non-atomic write may have flushed so far. -/
def properPrefixes (c : String) : List String :=
  (List.range c.data.length).map (fun n => ⟨c.data.take n⟩)

/-! ## Reachability and concrete runs -/

/-- Machines reachable from a fresh machine through any sequence of
`transition` calls (successful or thrown, with saves succeeding or
failing): the in-memory object survives a thrown call, so every call
contributes its post-call machine. -/
inductive Reachable (runId : String) : Machine → Prop where
  | init : Reachable runId (initialMachine runId)
  | step (m : Machine) (t : Trigger) (p : Payload) (saveOk : Bool) (now : String) :
      Reachable runId m → Reachable runId (transition m t p saveOk now).machine

/-- Run a list of (trigger, payload) steps with saves succeeding. -/
def runSteps (m : Machine) : List (Trigger × Payload) → Machine
  | [] => m
  | (t, p) :: rest => runSteps (transition m t p true "2024-03-15T00:00:00Z").machine rest

/-- The operational states of the forward path, in visit order. -/
def forwardStates : List State :=
  [.IDLE, .ANALYZING, .SEARCHING, .PLANNING, .GENERATING, .APPLYING,
   .BUILDING, .TESTING, .REVIEWING, .SUBMITTING, .DONE]

/-- The S1 happy-path run: the success trigger of each stage, carrying
the payload contexts the orchestrator merges after each handler
(`analysis` after `ANALYZING`, `searchResults` after `SEARCHING`, which
the guards require). -/
def happySteps : List (Trigger × Payload) :=
  [(.START,
     { context := some [("input",
         .vobj [("owner", .vstr "acme"), ("repo", .vstr "widget"),
                ("issueNumber", .vnum 7)])],
       error := none }),
   (.ANALYSIS_OK,
     { context := some [("analysis",
         .vobj [("summary", .vstr "Null check missing")])],
       error := none }),
   (.SEARCH_OK,
     { context := some [("searchResults",
         .varr [.vobj [("filePath", .vstr "src/widget.ts")]])],
       error := none }),
   (.PLAN_OK, noPayload),
   (.GENERATION_OK, noPayload),
   (.APPLY_OK, noPayload),
   (.BUILD_OK, noPayload),
   (.TEST_OK, noPayload),
   (.REVIEW_OK, noPayload),
   (.SUBMIT_OK, noPayload)]

/-- The machine after the first `n` happy-path transitions. -/
def happyRun (n : Nat) : Machine :=
  runSteps (initialMachine "run-1") (happySteps.take n)

/-- Partial contents a reader (or a post-crash recovery) can observe at
`path` while `ops` run: for every direct `writeFile` to `path`, every
proper prefix of the new content.  A rename exposes no such prefix — the
target switches atomically between complete documents. -/
def midFlightObservations (ops : List FsOp) (path : String) : List String :=
  ops.foldr
    (fun op acc =>
      match op with
      | .writeFile p c => if p = path then properPrefixes c ++ acc else acc
      | _ => acc)
    []

/-- Guard invariant: a machine sitting in a guarded destination state has
a context satisfying that guard. -/
def GuardInv (m : Machine) : Prop :=
  (m.state = .SEARCHING → searchingGuard m.context = true) ∧
  (m.state = .PLANNING → planningGuard m.context = true)

/-- History invariant: only non-control (operational) states are ever
checkpointed. -/
def HistoryOk (m : Machine) : Prop :=
  ∀ s ∈ m.history, s.isControl = false

/-! ## Theorems -/

theorem Ctx.merge_nil (a : Ctx) : Ctx.merge a [] = a := by
  unfold Ctx.merge Ctx.get
  simp

theorem reachable_runSteps {runId : String} {m : Machine}
    (h : Reachable runId m) :
    ∀ steps : List (Trigger × Payload), Reachable runId (runSteps m steps) := by
  intro steps
  induction steps generalizing m with
  | nil => exact h
  | cons s rest ih =>
      obtain ⟨t, p⟩ := s
      exact ih (Reachable.step m t p true _ h)

theorem reachable_happyRun (n : Nat) : Reachable "run-1" (happyRun n) :=
  reachable_runSteps Reachable.init _

theorem resolveNext_runId (m : Machine) (t : Trigger) :
    (resolveNext m t).1.runId = m.runId := by
  cases t <;> simp only [resolveNext] <;>
    first
    | rfl
    | (split <;> rfl)

theorem resolveNext_state (m : Machine) (t : Trigger) :
    (resolveNext m t).1.state = m.state := by
  cases t <;> simp only [resolveNext] <;>
    first
    | rfl
    | (split <;> rfl)

theorem resolveNext_context (m : Machine) (t : Trigger) :
    (resolveNext m t).1.context = m.context := by
  cases t <;> simp only [resolveNext] <;>
    first
    | rfl
    | (split <;> rfl)

theorem resolveNext_attempt_retry (m : Machine) :
    (resolveNext m .RETRY).1.attempt = m.attempt + 1 := by
  cases h : transitions m.state .RETRY <;> simp [resolveNext, h]

theorem resolveNext_attempt_other (m : Machine) (t : Trigger) (h : t ≠ .RETRY) :
    (resolveNext m t).1.attempt = m.attempt := by
  cases t <;> simp only [resolveNext] <;>
    first
    | rfl
    | (split <;> rfl)
    | (exact absurd rfl h)

theorem resolveNext_history_mem (m : Machine) (t : Trigger) (s : State)
    (h : s ∈ (resolveNext m t).1.history) : s ∈ m.history := by
  cases t <;> simp only [resolveNext] at h <;>
    first
    | exact h
    | exact List.dropLast_subset _ h
    | (revert h; split <;> intro h <;>
        first
        | exact h
        | exact List.dropLast_subset _ h)

/-- The context the guard sees equals the context the commit stores. -/
theorem guardCtx_eq_commitCtx (c : Ctx) (p : Payload) :
    Ctx.merge c (p.context.getD []) =
      (match p.context with
       | some pc => Ctx.merge c pc
       | none => c) := by
  cases p.context <;> simp [Ctx.merge_nil]

/-- Characterization of the machine after a committing call: `resolveNext`
produced `s`, the guard passed, so steps 6–7 apply. -/
theorem transition_commit_machine (m : Machine) (t : Trigger) (p : Payload)
    (saveOk : Bool) (now : String) (s : State)
    (hn : (resolveNext m t).2 = some s)
    (hg : checkGuard s (Ctx.merge m.context (p.context.getD [])) = true) :
    (transition m t p saveOk now).machine =
      { runId := m.runId,
        state := s,
        history :=
          if m.state.isControl = false ∧ t ≠ .RESUME ∧ t ≠ .RETRY
          then (resolveNext m t).1.history ++ [m.state]
          else (resolveNext m t).1.history,
        attempt := (resolveNext m t).1.attempt,
        context := Ctx.merge m.context (p.context.getD []) } := by
  unfold transition; rw [hn]
  simp only []
  rw [if_pos hg]
  unfold commitStep
  rw [guardCtx_eq_commitCtx]
  cases saveOk <;> rfl

/-- A call whose guard passes and whose save succeeds commits. -/
theorem transition_commit_isCommitted (m : Machine) (t : Trigger) (p : Payload)
    (now : String) (s : State)
    (hn : (resolveNext m t).2 = some s)
    (hg : checkGuard s (Ctx.merge m.context (p.context.getD [])) = true) :
    (transition m t p true now).outcome.isCommitted = true := by
  unfold transition; rw [hn]
  simp only []
  rw [if_pos hg]
  unfold commitStep
  rfl

theorem guardInv_transition (m : Machine) (t : Trigger) (p : Payload)
    (saveOk : Bool) (now : String) (h : GuardInv m) :
    GuardInv (transition m t p saveOk now).machine := by
  unfold GuardInv
  cases hn : (resolveNext m t).2 with
  | none =>
      unfold transition; rw [hn]
      refine ⟨fun hs => ?_, fun hs => ?_⟩ <;>
        rw [resolveNext_state] at hs <;> rw [resolveNext_context]
      · exact h.1 hs
      · exact h.2 hs
  | some s =>
      by_cases hg : checkGuard s (Ctx.merge m.context (p.context.getD [])) = true
      · rw [transition_commit_machine m t p saveOk now s hn hg]
        refine ⟨fun hs => ?_, fun hs => ?_⟩ <;> simp only [] at hs ⊢ <;> subst hs <;>
          simpa [checkGuard, transitionGuards] using hg
      · unfold transition; rw [hn]
        simp only []
        rw [if_neg hg]
        refine ⟨fun hs => ?_, fun hs => ?_⟩ <;>
          rw [resolveNext_state] at hs <;> rw [resolveNext_context]
        · exact h.1 hs
        · exact h.2 hs

theorem guardInv_reachable {runId : String} {m : Machine}
    (h : Reachable runId m) : GuardInv m := by
  induction h with
  | init =>
      unfold GuardInv
      refine ⟨fun hs => ?_, fun hs => ?_⟩ <;> simp [initialMachine] at hs
  | step m t p saveOk now _ ih => exact guardInv_transition m t p saveOk now ih

theorem not_cancelled_of_not_control {m : Machine}
    (hc : m.state.isControl = false) : m.state ≠ .CANCELLED := by
  intro h
  rw [h] at hc
  simp [State.isControl] at hc

theorem not_paused_of_not_control {m : Machine}
    (hc : m.state.isControl = false) : m.state ≠ .PAUSED := by
  intro h
  rw [h] at hc
  simp [State.isControl] at hc

/-- `PAUSE` resolution from a non-terminal state. -/
theorem resolveNext_pause (m : Machine)
    (hd : m.state ≠ .DONE) (hcanc : m.state ≠ .CANCELLED) :
    resolveNext m .PAUSE = (m, some .PAUSED) := by
  unfold resolveNext
  rw [if_pos ⟨hd, hcanc⟩]

/-- `FAIL` resolution from a non-terminal state. -/
theorem resolveNext_fail (m : Machine)
    (hd : m.state ≠ .DONE) (hcanc : m.state ≠ .CANCELLED) :
    resolveNext m .FAIL = (m, some .ERROR) := by
  unfold resolveNext
  rw [if_pos ⟨hd, hcanc⟩]

/-- A `PAUSE` from a non-terminal operational state commits, pushes the
current state and leaves attempt and context alone. -/
theorem transition_pause (m : Machine) (now : String)
    (hc : m.state.isControl = false) (hd : m.state ≠ .DONE) :
    (transition m .PAUSE noPayload true now).machine =
      { runId := m.runId, state := .PAUSED, history := m.history ++ [m.state],
        attempt := m.attempt, context := m.context } ∧
    (transition m .PAUSE noPayload true now).outcome.isCommitted = true := by
  have hrn := resolveNext_pause m hd (not_cancelled_of_not_control hc)
  have hn : (resolveNext m .PAUSE).2 = some .PAUSED := by rw [hrn]
  have hg : checkGuard .PAUSED
      (Ctx.merge m.context (noPayload.context.getD [])) = true := rfl
  refine ⟨?_, transition_commit_isCommitted m .PAUSE noPayload now .PAUSED hn hg⟩
  rw [transition_commit_machine m .PAUSE noPayload true now .PAUSED hn hg]
  rw [hrn]
  simp [noPayload, Ctx.merge_nil, hc]

/-- A `RESUME` from `PAUSED` pops the checkpoint and restores it as the
current state, provided its guard accepts the context. -/
theorem transition_resume (rid : String) (S : State) (h : List State)
    (att : Nat) (ctx : Ctx) (now : String)
    (hg : checkGuard S ctx = true) :
    (transition ⟨rid, .PAUSED, h ++ [S], att, ctx⟩ .RESUME noPayload true now).machine =
      { runId := rid, state := S, history := h, attempt := att, context := ctx } ∧
    (transition ⟨rid, .PAUSED, h ++ [S], att, ctx⟩ .RESUME noPayload true now).outcome.isCommitted
      = true := by
  set m : Machine := ⟨rid, .PAUSED, h ++ [S], att, ctx⟩ with hm
  have hrn : resolveNext m .RESUME =
      ({ m with history := h }, some S) := by
    unfold resolveNext
    simp [hm, List.dropLast_concat, List.getLast?_concat]
  have hn : (resolveNext m .RESUME).2 = some S := by rw [hrn]
  have hg2 : checkGuard S (Ctx.merge m.context (noPayload.context.getD [])) = true := by
    simpa [noPayload, Ctx.merge_nil] using hg
  refine ⟨?_, transition_commit_isCommitted m .RESUME noPayload now S hn hg2⟩
  rw [transition_commit_machine m .RESUME noPayload true now S hn hg2]
  rw [hrn]
  simp [hm, noPayload, Ctx.merge_nil]

/-- A `FAIL` from a non-terminal operational state commits to `ERROR`,
pushing the failing state onto history. -/
theorem transition_fail (m : Machine) (p : Payload) (now : String)
    (hc : m.state.isControl = false) (hd : m.state ≠ .DONE) :
    (transition m .FAIL p true now).machine =
      { runId := m.runId, state := .ERROR, history := m.history ++ [m.state],
        attempt := m.attempt,
        context := Ctx.merge m.context (p.context.getD []) } ∧
    (transition m .FAIL p true now).outcome.isCommitted = true := by
  have hrn := resolveNext_fail m hd (not_cancelled_of_not_control hc)
  have hn : (resolveNext m .FAIL).2 = some .ERROR := by rw [hrn]
  have hg : checkGuard .ERROR
      (Ctx.merge m.context (p.context.getD [])) = true := rfl
  refine ⟨?_, transition_commit_isCommitted m .FAIL p now .ERROR hn hg⟩
  rw [transition_commit_machine m .FAIL p true now .ERROR hn hg]
  rw [hrn]
  simp [hc]

/-- A `RETRY` from `ERROR` takes the explicit table entry: it commits to
`GENERATING`, increments `attempt` and leaves history alone (no pop, no
push). -/
theorem transition_retry_from_error (m : Machine) (now : String)
    (he : m.state = .ERROR) :
    (transition m .RETRY noPayload true now).machine =
      { runId := m.runId, state := .GENERATING, history := m.history,
        attempt := m.attempt + 1, context := m.context } ∧
    (transition m .RETRY noPayload true now).outcome.isCommitted = true := by
  have hrn : resolveNext m .RETRY =
      ({ m with attempt := m.attempt + 1 }, some .GENERATING) := by
    unfold resolveNext
    rw [show transitions m.state .RETRY = some .GENERATING by rw [he]; rfl]
  have hn : (resolveNext m .RETRY).2 = some .GENERATING := by rw [hrn]
  have hg : checkGuard .GENERATING
      (Ctx.merge m.context (noPayload.context.getD [])) = true := rfl
  refine ⟨?_, transition_commit_isCommitted m .RETRY noPayload now .GENERATING hn hg⟩
  rw [transition_commit_machine m .RETRY noPayload true now .GENERATING hn hg]
  rw [hrn]
  simp [noPayload, Ctx.merge_nil]

theorem historyOk_transition (m : Machine) (t : Trigger) (p : Payload)
    (saveOk : Bool) (now : String) (h : HistoryOk m) :
    HistoryOk (transition m t p saveOk now).machine := by
  cases hn : (resolveNext m t).2 with
  | none =>
      unfold transition; rw [hn]
      intro s hs
      exact h s (resolveNext_history_mem m t s hs)
  | some st =>
      by_cases hg : checkGuard st (Ctx.merge m.context (p.context.getD [])) = true
      · rw [transition_commit_machine m t p saveOk now st hn hg]
        intro s hs
        simp only [] at hs
        by_cases hcond : m.state.isControl = false ∧ t ≠ .RESUME ∧ t ≠ .RETRY
        · rw [if_pos hcond] at hs
          rcases List.mem_append.1 hs with hmem | hlast
          · exact h s (resolveNext_history_mem m t s hmem)
          · rw [List.mem_singleton.1 hlast]
            exact hcond.1
        · rw [if_neg hcond] at hs
          exact h s (resolveNext_history_mem m t s hs)
      · unfold transition; rw [hn]
        simp only []
        rw [if_neg hg]
        intro s hs
        exact h s (resolveNext_history_mem m t s hs)

theorem historyOk_reachable {runId : String} {m : Machine}
    (h : Reachable runId m) : HistoryOk m := by
  induction h with
  | init => intro s hs; simp [initialMachine] at hs
  | step m t p saveOk now _ ih => exact historyOk_transition m t p saveOk now ih

/-- The in-memory machine after a call does not depend on whether the
save succeeded: the mutations all happen before the save. -/
theorem transition_machine_saveOk_irrelevant (m : Machine) (t : Trigger)
    (p : Payload) (now : String) :
    (transition m t p false now).machine = (transition m t p true now).machine := by
  cases hn : (resolveNext m t).2 with
  | none => unfold transition; rw [hn]
  | some s =>
      unfold transition; rw [hn]
      simp only []
      split
      · unfold commitStep; rfl
      · rfl

/-- A failed save produces no completed effect: no save action finished
and no `stateChange` event was emitted. -/
theorem transition_actions_saveFail (m : Machine) (t : Trigger) (p : Payload)
    (now : String) :
    (transition m t p false now).actions = [] := by
  cases hn : (resolveNext m t).2 with
  | none => unfold transition; rw [hn]
  | some s =>
      unfold transition; rw [hn]
      simp only []
      split
      · unfold commitStep; rfl
      · rfl

/-- A call with a failing save never commits. -/
theorem transition_notCommitted_saveFail (m : Machine) (t : Trigger) (p : Payload)
    (now : String) :
    (transition m t p false now).outcome.isCommitted = false := by
  cases hn : (resolveNext m t).2 with
  | none => unfold transition; rw [hn]; rfl
  | some s =>
      unfold transition; rw [hn]
      simp only []
      split
      · unfold commitStep; rfl
      · rfl

/-- Only a committed call changes the store. -/
theorem storeAfter_of_not_committed (store : Store) (r : StepResult)
    (h : r.outcome.isCommitted = false) : storeAfter store r = store := by
  unfold storeAfter
  cases ho : r.outcome with
  | committed ev saved => rw [ho] at h; simp [Outcome.isCommitted] at h
  | invalidTransition => rfl
  | guardRejected dest => rfl
  | saveFailed attempted => rfl

/-- A committed call produced exactly the trace: completed save of the
new record, then the event, whose `to` state is the saved state. -/
theorem transition_commit_actions (m : Machine) (t : Trigger) (p : Payload)
    (now : String) (ev : StateChangeEvent) (saved : PersistedState)
    (h : (transition m t p true now).outcome = .committed ev saved) :
    (transition m t p true now).actions = [.save saved, .emit ev] ∧
    saved.currentState = ev.toState ∧
    ev.timestamp = saved.updatedAt := by
  cases hn : (resolveNext m t).2 with
  | none =>
      unfold transition at h
      rw [hn] at h
      simp at h
  | some st =>
      unfold transition at h ⊢
      rw [hn] at h ⊢
      simp only [] at h ⊢
      split at h
      case isTrue hg =>
        rw [if_pos hg]
        unfold commitStep at h ⊢
        simp only [if_true] at h ⊢
        injection h with h1 h2
        subst h1
        subst h2
        exact ⟨rfl, rfl, rfl⟩
      case isFalse hg =>
        simp at h

/-! ## The claims -/

/-- C1: For every failure occurring in a fix-cycle state (GENERATING,
APPLYING, BUILDING, TESTING, REVIEWING), if the recovery decision permits
a retry, then the state reached by the subsequent RETRY transition is
GENERATING (not the state that failed): the FAIL commits to ERROR, and
the RETRY from ERROR commits to GENERATING via the explicit table entry. -/
theorem C1_retry_after_fixcycle_failure_targets_generating
    (m : Machine) (msg : String) (det : Option String) (p : Payload)
    (maxAttempts : Nat) (now now2 : String)
    (hfix : m.state ∈ RecoveryManager.FIX_CYCLE_STATES)
    (_hretry : RecoveryManager.shouldRetry maxAttempts m.attempt
        (RecoveryManager.classify msg det m.state) = true) :
    (transition m .FAIL p true now).machine.state = .ERROR ∧
    (transition m .FAIL p true now).outcome.isCommitted = true ∧
    (transition (transition m .FAIL p true now).machine
        .RETRY noPayload true now2).machine.state = .GENERATING ∧
    (transition (transition m .FAIL p true now).machine
        .RETRY noPayload true now2).outcome.isCommitted = true := by
  have hc : m.state.isControl = false := by
    simp [RecoveryManager.FIX_CYCLE_STATES] at hfix
    rcases hfix with h | h | h | h | h <;> rw [h] <;> rfl
  have hd : m.state ≠ .DONE := by
    simp [RecoveryManager.FIX_CYCLE_STATES] at hfix
    rcases hfix with h | h | h | h | h <;> rw [h] <;> intro hcon <;> cases hcon
  obtain ⟨hm1, hcom1⟩ := transition_fail m p now hc hd
  have he : (transition m .FAIL p true now).machine.state = .ERROR := by rw [hm1]
  obtain ⟨hm2, hcom2⟩ := transition_retry_from_error _ now2 he
  exact ⟨he, hcom1, by rw [hm2], hcom2⟩

/-- Witness for C1 at a concrete input: a failure in TESTING at attempt 1
with maxAttempts 3 is retried into GENERATING. -/
theorem C1_witness :
    (⟨"r", .TESTING, [], 1, []⟩ : Machine).state ∈ RecoveryManager.FIX_CYCLE_STATES ∧
    RecoveryManager.shouldRetry 3 1
      (RecoveryManager.classify "boom" none (Machine.state ⟨"r", .TESTING, [], 1, []⟩)) = true ∧
    (transition (transition ⟨"r", .TESTING, [], 1, []⟩ .FAIL noPayload true "t1").machine
        .RETRY noPayload true "t2").machine.state = .GENERATING :=
  ⟨by decide, by decide,
    (C1_retry_after_fixcycle_failure_targets_generating
      ⟨"r", .TESTING, [], 1, []⟩ "boom" none noPayload 3 "t1" "t2"
      (by decide) (by decide)).2.2.1⟩

/-- C2 counterexample: the claim says a failed save aborts the transition
with the in-memory state unchanged.  On a concrete failed save the
machine has in fact moved from IDLE to ANALYZING, pushed history, and
merged the payload context. -/
theorem C2_counterexample :
    (transition (initialMachine "r") .START
        { context := some [("input", .vstr "x")], error := none } false "t").machine.state
      = .ANALYZING ∧
    (initialMachine "r").state = .IDLE ∧
    (transition (initialMachine "r") .START
        { context := some [("input", .vstr "x")], error := none } false "t").machine.state
      ≠ (initialMachine "r").state ∧
    (transition (initialMachine "r") .START
        { context := some [("input", .vstr "x")], error := none } false "t").machine.history
      = [.IDLE] ∧
    (transition (initialMachine "r") .START
        { context := some [("input", .vstr "x")], error := none } false "t").machine.context
      = [("input", .vstr "x")] :=
  ⟨rfl, rfl, by decide, rfl, rfl⟩

/-- C2 amended: when the save fails the transition is aborted only
externally — no stateChange event is emitted, no completed save occurs,
and the store keeps its old record — but the in-memory machine does not
revert: its state, context, history and attempt are exactly those a
successful transition would have produced. -/
theorem C2_save_failure_aborts_externally_but_memory_not_reverted
    (m : Machine) (t : Trigger) (p : Payload) (now : String) (store : Store) :
    (transition m t p false now).machine = (transition m t p true now).machine ∧
    (transition m t p false now).actions = [] ∧
    (transition m t p false now).outcome.isCommitted = false ∧
    storeAfter store (transition m t p false now) = store :=
  ⟨transition_machine_saveOk_irrelevant m t p now,
   transition_actions_saveFail m t p now,
   transition_notCommitted_saveFail m t p now,
   storeAfter_of_not_committed store _ (transition_notCommitted_saveFail m t p now)⟩

/-- C3: a transition whose resolved destination is SEARCHING is rejected
by the guard when the merged context has no `analysis` key (whatever
other keys, such as `query`, it has), and can only commit when the
`analysis` key is present. -/
theorem C3_searching_requires_analysis
    (m : Machine) (t : Trigger) (p : Payload) (saveOk : Bool) (now : String)
    (hdest : (resolveNext m t).2 = some .SEARCHING) :
    ((Ctx.get (Ctx.merge m.context (p.context.getD [])) "analysis").isNone = true →
      (transition m t p saveOk now).outcome = .guardRejected .SEARCHING) ∧
    (∀ (ev : StateChangeEvent) (saved : PersistedState),
      (transition m t p saveOk now).outcome = .committed ev saved →
      (Ctx.get (Ctx.merge m.context (p.context.getD [])) "analysis").isSome = true) := by
  constructor
  · intro habsent
    have hg : checkGuard .SEARCHING (Ctx.merge m.context (p.context.getD [])) = false := by
      simp only [checkGuard, transitionGuards, searchingGuard]
      rw [Option.isNone_iff_eq_none] at habsent
      rw [habsent]
      rfl
    unfold transition
    rw [hdest]
    simp only []
    rw [if_neg (by rw [hg]; simp)]
  · intro ev saved h
    by_cases hg : checkGuard .SEARCHING (Ctx.merge m.context (p.context.getD [])) = true
    · have := hg
      simp only [checkGuard, transitionGuards, searchingGuard] at this
      cases hopt : Ctx.get (Ctx.merge m.context (p.context.getD [])) "analysis" with
      | none => rw [hopt] at this; cases this
      | some v => rfl
    · unfold transition at h
      rw [hdest] at h
      simp only [] at h
      rw [if_neg hg] at h
      simp at h

/-- Witness for C3 at a concrete input: from ANALYZING with a context
holding only `query`, the ANALYSIS_OK transition resolves to SEARCHING
and is rejected by the guard. -/
theorem C3_witness :
    (resolveNext ⟨"r", .ANALYZING, [], 1, [("query", .vstr "q")]⟩ .ANALYSIS_OK).2
      = some .SEARCHING ∧
    (Ctx.get (Ctx.merge (Machine.context ⟨"r", .ANALYZING, [], 1, [("query", .vstr "q")]⟩)
        (noPayload.context.getD [])) "analysis").isNone = true ∧
    (transition ⟨"r", .ANALYZING, [], 1, [("query", .vstr "q")]⟩
        .ANALYSIS_OK noPayload true "t").outcome = .guardRejected .SEARCHING :=
  ⟨rfl, rfl,
    (C3_searching_requires_analysis ⟨"r", .ANALYZING, [], 1, [("query", .vstr "q")]⟩
      .ANALYSIS_OK noPayload true "t" rfl).1 rfl⟩

/-- C4 counterexample: DONE is an operational state (the spec includes
the terminal DONE among operational states) and is reachable via the
happy path, but PAUSE from DONE throws InvalidTransition, and a RESUME
issued next pops history and lands in SUBMITTING, not DONE. -/
theorem C4_counterexample :
    Reachable "run-1" (happyRun 10) ∧
    (happyRun 10).state = .DONE ∧
    (transition (happyRun 10) .PAUSE noPayload true "t1").outcome = .invalidTransition ∧
    (transition (transition (happyRun 10) .PAUSE noPayload true "t1").machine
        .RESUME noPayload true "t2").machine.state = .SUBMITTING ∧
    State.SUBMITTING ≠ State.DONE :=
  ⟨reachable_happyRun 10, by decide, rfl, by decide, by decide⟩

/-- C4 amended: for every reachable machine in a non-terminal operational
state (operational and distinct from DONE), issuing PAUSE and then RESUME
commits both transitions and returns the machine — state, context,
history and attempt — to exactly its previous value. -/
theorem C4_pause_resume_roundtrip (runId : String) (m : Machine)
    (now now2 : String) (hreach : Reachable runId m)
    (hop : m.state.isControl = false) (hD : m.state ≠ .DONE) :
    (transition m .PAUSE noPayload true now).machine.state = .PAUSED ∧
    (transition m .PAUSE noPayload true now).outcome.isCommitted = true ∧
    (transition (transition m .PAUSE noPayload true now).machine
        .RESUME noPayload true now2).outcome.isCommitted = true ∧
    (transition (transition m .PAUSE noPayload true now).machine
        .RESUME noPayload true now2).machine = m := by
  obtain ⟨hm1, hcom1⟩ := transition_pause m now hop hD
  have hg : checkGuard m.state m.context = true := by
    have hinv := guardInv_reachable hreach
    cases hs : m.state <;> simp only [checkGuard, transitionGuards]
    case SEARCHING => exact hinv.1 hs
    case PLANNING => exact hinv.2 hs
  obtain ⟨hm2, hcom2⟩ :=
    transition_resume m.runId m.state m.history m.attempt m.context now2 hg
  refine ⟨by rw [hm1], hcom1, ?_, ?_⟩
  · rw [hm1]
    exact hcom2
  · rw [hm1, hm2]

/-- Witness for C4 amended at a concrete input: pausing and resuming the
machine reached after four happy-path transitions (GENERATING) restores
it exactly. -/
theorem C4_witness :
    (happyRun 4).state.isControl = false ∧
    (happyRun 4).state ≠ .DONE ∧
    (transition (transition (happyRun 4) .PAUSE noPayload true "t1").machine
        .RESUME noPayload true "t2").machine = happyRun 4 :=
  ⟨by decide, by decide,
    (C4_pause_resume_roundtrip "run-1" (happyRun 4) "t1" "t2"
      (reachable_happyRun 4) (by decide) (by decide)).2.2.2⟩

theorem resolveNext_history_other (m : Machine) (t : Trigger)
    (h1 : t ≠ .RESUME) (h2 : t ≠ .RETRY) :
    (resolveNext m t).1.history = m.history := by
  cases t <;> simp only [resolveNext] <;>
    first
    | rfl
    | (split <;> rfl)
    | (exact absurd rfl h1)
    | (exact absurd rfl h2)

/-- C5: the history invariant — every reachable history holds only
operational (non-control) states; every committed non-RESUME, non-RETRY
transition out of an operational state appends exactly that state to the
history; hence after the first n happy-path transitions the history is
exactly the n operational states visited, in order, excluding the
current state. -/
theorem C5_history_operational_and_forward_law (runId : String) :
    (∀ m : Machine, Reachable runId m → ∀ s ∈ m.history, s.isControl = false) ∧
    (∀ (m : Machine) (t : Trigger) (p : Payload) (now : String)
        (ev : StateChangeEvent) (saved : PersistedState),
        t ≠ .RESUME → t ≠ .RETRY → m.state.isControl = false →
        (transition m t p true now).outcome = .committed ev saved →
        (transition m t p true now).machine.history = m.history ++ [m.state]) ∧
    (∀ n : Nat, n ≤ 10 →
      (happyRun n).history = forwardStates.take n ∧
      (happyRun n).state = forwardStates.getD n .DONE) := by
  refine ⟨fun m hr => historyOk_reachable hr, ?_, by decide⟩
  intro m t p now ev saved h1 h2 hc hcom
  cases hn : (resolveNext m t).2 with
  | none =>
      unfold transition at hcom
      rw [hn] at hcom
      simp at hcom
  | some s =>
      by_cases hg : checkGuard s (Ctx.merge m.context (p.context.getD [])) = true
      · rw [transition_commit_machine m t p true now s hn hg]
        simp only []
        rw [if_pos ⟨hc, h1, h2⟩, resolveNext_history_other m t h1 h2]
      · unfold transition at hcom
        rw [hn] at hcom
        simp only [] at hcom
        rw [if_neg hg] at hcom
        simp at hcom

/-- Witness for C5 at concrete inputs: IDLE sits in the reachable history
of the two-step machine and is operational; the committed START
transition of a fresh machine pushes IDLE; after three forward
transitions the history is the three visited states in order. -/
theorem C5_witness :
    State.isControl .IDLE = false ∧
    (transition (initialMachine "r") .START
        { context := some [("input", .vstr "x")], error := none } true "t").machine.history
      = (initialMachine "r").history ++ [(initialMachine "r").state] ∧
    (happyRun 3).history = [State.IDLE, State.ANALYZING, State.SEARCHING] :=
  ⟨(C5_history_operational_and_forward_law "run-1").1 (happyRun 2)
      (reachable_happyRun 2) .IDLE (by decide),
   (C5_history_operational_and_forward_law "run-1").2.1 (initialMachine "r")
      .START { context := some [("input", .vstr "x")], error := none } "t"
      { fromState := .IDLE, toState := .ANALYZING, trigger := .START,
        runId := "r", timestamp := "t" }
      { runId := "r", currentState := .ANALYZING, updatedAt := "t",
        attempt := 1, context := [("input", .vstr "x")], error := none,
        history := [.IDLE] }
      (by decide) (by decide) (by decide) rfl,
   ((C5_history_operational_and_forward_law "run-1").2.2 3 (by decide)).1.trans
      (by decide)⟩

/-- C6 counterexample: a message differing from the fatal pattern
"Authentication failed" only in letter case is NOT classified fatal —
the fatal catalog is matched case-sensitively.  Outside the fix cycle it
falls through to UNRECOVERABLE_ERROR; inside the fix cycle it is even
classified retryable. -/
theorem C6_counterexample :
    RecoveryManager.isFatal "Authentication failed" = true ∧
    RecoveryManager.isFatal "AUTHENTICATION FAILED" = false ∧
    (RecoveryManager.classify "AUTHENTICATION FAILED" none .ANALYZING).code
      = "UNRECOVERABLE_ERROR" ∧
    (RecoveryManager.classify "AUTHENTICATION FAILED" none .GENERATING).code
      = "RETRYABLE_ERROR" := by
  refine ⟨by decide, by decide, by decide, by decide⟩

/-- C6 amended: the transient catalog is matched case-insensitively
(messages with equal lowercasings classify alike, and a case variant of
"rate limit" is still transient), while the fatal catalog is matched by
case-sensitive substring, so a case variant of a fatal pattern is not
classified FATAL_ERROR. -/
theorem C6_transient_case_insensitive_fatal_case_sensitive :
    (∀ msg msg2 : String, lowerStr msg = lowerStr msg2 →
        RecoveryManager.isTransient msg = RecoveryManager.isTransient msg2) ∧
    lowerStr "Authentication failed" = lowerStr "AUTHENTICATION FAILED" ∧
    RecoveryManager.isFatal "Authentication failed" ≠
      RecoveryManager.isFatal "AUTHENTICATION FAILED" ∧
    (RecoveryManager.classify "Connection RATE LIMIT hit" none .ANALYZING).code
      = "TRANSIENT_ERROR" ∧
    (RecoveryManager.classify "Authentication failed" none .ANALYZING).code
      = "FATAL_ERROR" := by
  refine ⟨?_, by decide, by decide, by decide, by decide⟩
  intro msg msg2 h
  unfold RecoveryManager.isTransient
  rw [h]

/-- Witness for C6 amended at a concrete input: two case variants of a
rate-limit message classify identically. -/
theorem C6_witness :
    lowerStr "rate limit hit" = lowerStr "RATE LIMIT HIT" ∧
    RecoveryManager.isTransient "rate limit hit"
      = RecoveryManager.isTransient "RATE LIMIT HIT" :=
  ⟨by decide,
    C6_transient_case_insensitive_fatal_case_sensitive.1
      "rate limit hit" "RATE LIMIT HIT" (by decide)⟩

/-- C7 counterexample: shouldRetry also returns true for a transient
classification carrying a retry target, contradicting the claimed
equivalence with severity = retryable. -/
theorem C7_counterexample :
    RecoveryManager.shouldRetry 3 1
      { severity := .transient, code := "TRANSIENT_ERROR", message := "x",
        details := none, retryTarget := some .GENERATING } = true ∧
    Severity.transient ≠ Severity.retryable := by
  refine ⟨by decide, by decide⟩

/-- C7 amended: shouldRetry tests severity ≠ fatal (not severity =
retryable); for classifications actually produced by classify — which
never attach a retry target to a transient — the claimed equivalence
holds, and maxAttempts = 1 disables every retry from attempt 1 on. -/
theorem C7_shouldRetry_characterization :
    (∀ (maxAttempts attempt : Nat) (c : ErrorClassification),
        RecoveryManager.shouldRetry maxAttempts attempt c = true ↔
          (c.severity ≠ .fatal ∧ c.retryTarget ≠ none ∧ attempt < maxAttempts)) ∧
    (∀ (maxAttempts attempt : Nat) (msg : String) (det : Option String) (st : State),
        RecoveryManager.shouldRetry maxAttempts attempt
            (RecoveryManager.classify msg det st) = true ↔
          ((RecoveryManager.classify msg det st).severity = .retryable ∧
            (RecoveryManager.classify msg det st).retryTarget ≠ none ∧
            attempt < maxAttempts)) ∧
    (∀ attempt : Nat, 1 ≤ attempt → ∀ c : ErrorClassification,
        RecoveryManager.shouldRetry 1 attempt c = false) := by
  have hgen : ∀ (maxAttempts attempt : Nat) (c : ErrorClassification),
      RecoveryManager.shouldRetry maxAttempts attempt c = true ↔
        (c.severity ≠ .fatal ∧ c.retryTarget ≠ none ∧ attempt < maxAttempts) := by
    intro maxAttempts attempt c
    unfold RecoveryManager.shouldRetry
    rcases c with ⟨sev, code, msg, det, tgt⟩
    cases sev <;> cases tgt <;> simp
  refine ⟨hgen, ?_, ?_⟩
  · intro maxAttempts attempt msg det st
    rw [hgen]
    unfold RecoveryManager.classify
    by_cases hf : RecoveryManager.isFatal msg = true
    · rw [if_pos hf]; simp
    · rw [if_neg hf]
      by_cases hcy : RecoveryManager.FIX_CYCLE_STATES.contains st = true
      · rw [if_pos hcy]; simp
      · rw [if_neg hcy]
        by_cases ht : RecoveryManager.isTransient msg = true
        · rw [if_pos ht]; simp
        · rw [if_neg ht]; simp
  · intro attempt hattempt c
    rcases hr : RecoveryManager.shouldRetry 1 attempt c with _ | _
    · rfl
    · exact absurd (((hgen 1 attempt c).1 hr).2.2) (by omega)

/-- Witness for C7 at a concrete input: with maxAttempts = 1, even a
retryable classification with a target is not retried at attempt 1. -/
theorem C7_witness :
    RecoveryManager.shouldRetry 1 1
      { severity := .retryable, code := "RETRYABLE_ERROR", message := "x",
        details := none, retryTarget := some .GENERATING } = false :=
  C7_shouldRetry_characterization.2.2 1 (by decide)
    { severity := .retryable, code := "RETRYABLE_ERROR", message := "x",
      details := none, retryTarget := some .GENERATING }

theorem transition_machine_attempt (m : Machine) (t : Trigger) (p : Payload)
    (saveOk : Bool) (now : String) :
    (transition m t p saveOk now).machine.attempt = (resolveNext m t).1.attempt := by
  cases hn : (resolveNext m t).2 with
  | none => unfold transition; rw [hn]
  | some s =>
      unfold transition; rw [hn]
      simp only []
      split
      · unfold commitStep
        cases saveOk <;> rfl
      · rfl

theorem transition_machine_runId (m : Machine) (t : Trigger) (p : Payload)
    (saveOk : Bool) (now : String) :
    (transition m t p saveOk now).machine.runId = m.runId := by
  cases hn : (resolveNext m t).2 with
  | none => unfold transition; rw [hn]; exact resolveNext_runId m t
  | some s =>
      unfold transition; rw [hn]
      simp only []
      split
      · unfold commitStep
        cases saveOk <;> rfl
      · exact resolveNext_runId m t

/-- C8: across any single transition call the attempt counter goes up by
exactly 1 when the trigger is RETRY and is untouched for every other
trigger (in particular for every committed transition); hence the counter
never decreases. -/
theorem C8_attempt_increments_only_on_retry
    (m : Machine) (t : Trigger) (p : Payload) (saveOk : Bool) (now : String) :
    ((transition m t p saveOk now).machine.attempt
        = if t = .RETRY then m.attempt + 1 else m.attempt) ∧
    m.attempt ≤ (transition m t p saveOk now).machine.attempt := by
  have h := transition_machine_attempt m t p saveOk now
  by_cases ht : t = .RETRY
  · subst ht
    rw [h, resolveNext_attempt_retry]
    simp
  · rw [h, resolveNext_attempt_other m t ht]
    simp [ht]

/-- C9: whenever a transition commits, the effect trace is exactly the
completed save of the new record followed by the stateChange emission;
the store then loads a record whose currentState is the event's `to`
state; and a failing save emits nothing. -/
theorem C9_event_emitted_after_save_matches_store
    (m : Machine) (t : Trigger) (p : Payload) (now : String) (store : Store)
    (ev : StateChangeEvent) (saved : PersistedState)
    (h : (transition m t p true now).outcome = .committed ev saved) :
    (transition m t p true now).actions = [.save saved, .emit ev] ∧
    Store.load (storeAfter store (transition m t p true now)) = some saved ∧
    saved.currentState = ev.toState ∧
    (transition m t p false now).actions = [] := by
  obtain ⟨ha, hcs, _⟩ := transition_commit_actions m t p now ev saved h
  refine ⟨ha, ?_, hcs, transition_actions_saveFail m t p now⟩
  unfold storeAfter Store.load
  rw [h]

/-- Witness for C9 at a concrete input: the committed START transition of
a fresh machine saves the ANALYZING record and then emits an event whose
`to` state the store now reports. -/
theorem C9_witness :
    Store.load (storeAfter none
        (transition (initialMachine "r") .START
          { context := some [("input", .vstr "x")], error := none } true "t"))
      = some { runId := "r", currentState := .ANALYZING, updatedAt := "t",
               attempt := 1, context := [("input", .vstr "x")], error := none,
               history := [.IDLE] } ∧
    PersistedState.currentState
        { runId := "r", currentState := .ANALYZING, updatedAt := "t",
          attempt := 1, context := [("input", .vstr "x")], error := none,
          history := [.IDLE] }
      = StateChangeEvent.toState
          { fromState := .IDLE, toState := .ANALYZING, trigger := .START,
            runId := "r", timestamp := "t" } :=
  ⟨(C9_event_emitted_after_save_matches_store (initialMachine "r") .START
      { context := some [("input", .vstr "x")], error := none } "t" none
      { fromState := .IDLE, toState := .ANALYZING, trigger := .START,
        runId := "r", timestamp := "t" }
      { runId := "r", currentState := .ANALYZING, updatedAt := "t",
        attempt := 1, context := [("input", .vstr "x")], error := none,
        history := [.IDLE] } rfl).2.1,
   (C9_event_emitted_after_save_matches_store (initialMachine "r") .START
      { context := some [("input", .vstr "x")], error := none } "t" none
      { fromState := .IDLE, toState := .ANALYZING, trigger := .START,
        runId := "r", timestamp := "t" }
      { runId := "r", currentState := .ANALYZING, updatedAt := "t",
        attempt := 1, context := [("input", .vstr "x")], error := none,
        history := [.IDLE] } rfl).2.2.1⟩

/-- C10: the claim (and the spec) require save to write atomically with
respect to readers via temp-file plus rename or equivalent.  The code
instead issues a single direct writeFile on the storage path after the
mkdir: there is no rename, the write targets the record path itself, and
a reader or crash mid-write can observe a proper prefix (here, the empty
file) that is not the serialized record. -/
theorem C10_save_writes_directly_without_rename
    (storagePath : String) (st : PersistedState) :
    StateStore.saveOps storagePath st =
      [.mkdirRecursive (dirname storagePath),
       .writeFile storagePath (serializeRecord st)] ∧
    writesDirectlyTo (StateStore.saveOps storagePath st) storagePath = true ∧
    usesRename (StateStore.saveOps storagePath st) = false ∧
    ¬ atomicWrtReaders (StateStore.saveOps storagePath st) storagePath ∧
    "" ∈ midFlightObservations (StateStore.saveOps storagePath st) storagePath ∧
    "" ≠ serializeRecord st := by
  have hhead : (serializeRecord st).data.head? = some '{' := rfl
  have hlen : 0 < (serializeRecord st).data.length := by
    cases hd : (serializeRecord st).data with
    | nil => rw [hd] at hhead; cases hhead
    | cons c cs => simp
  have hmemPre : ("" : String) ∈ properPrefixes (serializeRecord st) := by
    unfold properPrefixes
    exact List.mem_map.2 ⟨0, List.mem_range.2 hlen, rfl⟩
  have hwrit : writesDirectlyTo (StateStore.saveOps storagePath st) storagePath
      = true := by
    simp [StateStore.saveOps, writesDirectlyTo]
  refine ⟨rfl, hwrit, by simp [StateStore.saveOps, usesRename], ?_, ?_, ?_⟩
  · intro hatomic
    obtain ⟨h1, _⟩ := hatomic
    rw [hwrit] at h1
    cases h1
  · unfold midFlightObservations StateStore.saveOps
    simp only [List.foldr]
    simpa using hmemPre
  · intro h
    have : (serializeRecord st).data.head? = none := by rw [← h]; rfl
    rw [hhead] at this
    cases this

end OSC
